import Mathlib

/-!
Verification of the task-file lifecycle and subprocess-orchestration subsystem
of the claude-task-manager CLI, as a shallow embedding in Lean.

The embedding models:
* TaskManager.archiveCurrentTask / createNewTask / logExecution
  (src/lib/TaskManager.ts) over an explicit filesystem state
  (active task file as an Option String plus the archive directory as an
  association list keyed by filename, where writing an existing name
  overwrites it, as fs.writeFile does);
* the archive filename generator, date-fns format "yyyy-MM-dd_HH-mm-ss"
  plus a 3-digit zero-padded millisecond suffix and the "_task.md" suffix;
* TaskSplitter.callClaude / parseSubtasks / updateTaskFile / splitTask
  (src/lib/TaskSplitter.ts), with the child process abstracted as an
  observed behaviour record (launch error, close time, exit code, captured
  stdout/stderr) and the five-minute timeout race made explicit;
* ProgressTracker.parseProgress (src/lib/ProgressTracker.ts);
* HistoryManager.getHistory (src/lib/HistoryManager.ts).

String-valued computations from the source are translated to executable
functions on lists of characters.  The specific JavaScript regexes used by
the source are translated as deterministic scanners that implement exactly
the leftmost-match and greedy/lazy backtracking behaviour those patterns
have on newline-separated text (each translation is documented at its
definition).
-/

/-! ### Character and list-of-character utilities -/

/-- Whitespace class of JavaScript regex \s restricted to the ASCII range
(space, tab, line feed, carriage return, vertical tab, form feed).  The
source files only ever feed ASCII whitespace to these positions. -/
def jsIsWs (c : Char) : Bool :=
  c = ' ' || c = '\t' || c = '\n' || c = '\r' || c = '\x0b' || c = '\x0c'

/-- Drop leading JS whitespace (one half of String.prototype.trim). -/
def trimLeft (l : List Char) : List Char := l.dropWhile jsIsWs

/-- JavaScript String.prototype.trim on a list of characters. -/
def jsTrimList (l : List Char) : List Char :=
  (trimLeft (trimLeft l.reverse).reverse)

/-- JavaScript String.prototype.trim. -/
def jsTrim (s : String) : String := ⟨jsTrimList s.data⟩

/-- Split on the line-feed character, exactly like
JavaScript String.prototype.split with separator "\n"
(an empty input yields one empty line, a trailing separator yields a
trailing empty line). -/
def splitNl : List Char → List (List Char)
  | [] => [[]]
  | c :: t =>
    if c = '\n' then [] :: splitNl t
    else
      match splitNl t with
      | [] => [[c]]
      | h :: r => (c :: h) :: r

/-- Substring containment, the model of JavaScript String.prototype.includes. -/
def containsSub (needle : List Char) : List Char → Bool
  | [] => needle.isEmpty
  | c :: t => needle.isPrefixOf (c :: t) || containsSub needle t

/-- String-level wrapper for substring containment. -/
def strIncludes (hay needle : String) : Bool := containsSub needle.data hay.data

/-- Whether the second list ends with the first (endsWith on filenames). -/
def endsWithList (suffix l : List Char) : Bool :=
  suffix.reverse.isPrefixOf l.reverse

/-- JavaScript String.prototype.endsWith. -/
def strEndsWith (s suffix : String) : Bool := endsWithList suffix.data s.data

/-! ### Timestamps and archive filenames

TaskManager.archiveCurrentTask names an archive file
format(now, "yyyy-MM-dd_HH-mm-ss") ++ "-" ++ millis-padded-to-3 ++ "_task.md".
The wall-clock instant captured by new Date() is modelled as a millisecond-
resolution calendar tuple; a separate sub-millisecond component models the
fact that two distinct real instants can carry the same millisecond tuple. -/

/-- Calendar timestamp at millisecond resolution, the precision actually
recorded in archive filenames by the source. -/
structure DateTime where
  year : Nat
  month : Nat
  day : Nat
  hour : Nat
  minute : Nat
  second : Nat
  millis : Nat
deriving DecidableEq, Repr

/-- Field bounds under which the fixed-width rendering used by the source is
faithful (every real date satisfies these). -/
abbrev DateTime.Valid (d : DateTime) : Prop :=
  d.year < 10000 ∧ d.month < 100 ∧ d.day < 100 ∧ d.hour < 100 ∧
    d.minute < 100 ∧ d.second < 100 ∧ d.millis < 1000

/-- Chronological (lexicographic) strict order on millisecond timestamps. -/
abbrev dtLt (a b : DateTime) : Prop :=
  a.year < b.year ∨ (a.year = b.year ∧
    (a.month < b.month ∨ (a.month = b.month ∧
      (a.day < b.day ∨ (a.day = b.day ∧
        (a.hour < b.hour ∨ (a.hour = b.hour ∧
          (a.minute < b.minute ∨ (a.minute = b.minute ∧
            (a.second < b.second ∨ (a.second = b.second ∧
              a.millis < b.millis)))))))))))

/-- A real instant: the millisecond tuple captured by new Date() plus the
sub-millisecond remainder that the code never observes. -/
structure Instant where
  dt : DateTime
  subMs : Nat
deriving DecidableEq, Repr

/-- Real-time strict order on instants. -/
abbrev instantLt (a b : Instant) : Prop :=
  dtLt a.dt b.dt ∨ (a.dt = b.dt ∧ a.subMs < b.subMs)

/-- Fixed-width base-10 rendering (width w, leading zeros), the model of
zero-padded date-fns fields and of String.prototype.padStart(w, "0")
for numbers below 10^w. -/
def padDigits : Nat → Nat → List Char
  | 0, _ => []
  | w + 1, n => padDigits w (n / 10) ++ [Nat.digitChar (n % 10)]

/-- Character data of the archive filename
"yyyy-MM-dd_HH-mm-ss-SSS_task.md" built by archiveCurrentTask. -/
def archiveNameData (d : DateTime) : List Char :=
  padDigits 4 d.year ++ '-' ::
    (padDigits 2 d.month ++ '-' ::
      (padDigits 2 d.day ++ '_' ::
        (padDigits 2 d.hour ++ '-' ::
          (padDigits 2 d.minute ++ '-' ::
            (padDigits 2 d.second ++ '-' ::
              (padDigits 3 d.millis ++ "_task.md".data))))))

/-- Archive filename generated by archiveCurrentTask for a rotate at d. -/
def archiveFileName (d : DateTime) : String := ⟨archiveNameData d⟩

/-- ISO-like rendering of the timestamp used in the archival marker comment
(new Date().toISOString()). -/
def isoString (d : DateTime) : String :=
  ⟨padDigits 4 d.year ++ '-' ::
    (padDigits 2 d.month ++ '-' ::
      (padDigits 2 d.day ++ 'T' ::
        (padDigits 2 d.hour ++ ':' ::
          (padDigits 2 d.minute ++ ':' ::
            (padDigits 2 d.second ++ '.' ::
              (padDigits 3 d.millis ++ ['Z']))))))⟩

/-- Timestamp rendering format(ts, "yyyy-MM-dd HH:mm:ss") used in the
execution-log header. -/
def logTimestamp (d : DateTime) : String :=
  ⟨padDigits 4 d.year ++ '-' ::
    (padDigits 2 d.month ++ '-' ::
      (padDigits 2 d.day ++ ' ' ::
        (padDigits 2 d.hour ++ ':' ::
          (padDigits 2 d.minute ++ ':' ::
            padDigits 2 d.second))))⟩


/-! ### TaskManager state model

The filesystem state a TaskManager instance mutates: the single active task
file (task.md under the project root) and the archive directory.  The archive
directory is an association list from filename to file content; fs.writeFile
to an existing name overwrites that entry, writing a fresh name appends one. -/

/-- Fixed active-task filename used by the source (config.taskFile). -/
def taskFilePath : String := "task.md"

/-- Mutable filesystem state under the project root. -/
structure TMState where
  taskFile? : Option String
  archive : List (String × String)
deriving DecidableEq, Repr

/-- Fresh project root: no active task, empty archive directory. -/
def freshTM : TMState := ⟨none, []⟩

/-- Error taxonomy of the TaskManager paths modelled here
(FileSystemError carries message, path and attempted operation;
TaskManagerError carries message and code). -/
inductive TMError where
  | fileSystemError (message path op : String)
  | taskManagerError (message code : String)
deriving DecidableEq, Repr

/-- Fault injection for the two filesystem writes inside
archiveCurrentTask: fs.writeFile of the archive copy and fs.remove of the
original.  none means the operation succeeds; some msg means it throws an
error with that message. -/
structure FsFaults where
  writeErr : Option String
  removeErr : Option String
deriving DecidableEq, Repr

/-- All filesystem operations succeed. -/
def noFaults : FsFaults := ⟨none, none⟩

/-- fs.writeFile into a directory listing: overwrite the entry with that
name if present, otherwise append a new entry. -/
def insertAssoc (k v : String) : List (String × String) → List (String × String)
  | [] => [(k, v)]
  | (k', v') :: t => if k = k' then (k, v) :: t else (k', v') :: insertAssoc k v t

/-- Content written to the archive copy: the archival marker comment
prepended to the current task content.  (The source calls new Date() a
second time for the marker; both reads are modelled by the same instant.) -/
def archivedContent (now : DateTime) (content : String) : String :=
  "<!-- Archived: " ++ isoString now ++ " -->\n\n" ++ content

/-- TaskManager.archiveCurrentTask: no active file is a null no-op; otherwise
write the marker-prefixed copy under the timestamped archive name, then
delete the original.  Any error thrown inside (modelled by the injected
faults) is caught and re-thrown as a FileSystemError whose message wraps the
underlying one — including a failure of the delete after a successful copy,
which leaves the archive entry written and the active file in place. -/
def archiveCurrentTask (st : TMState) (now : DateTime) (f : FsFaults) :
    Except TMError (Option String) × TMState :=
  match st.taskFile? with
  | none => (.ok none, st)
  | some content =>
    match f.writeErr with
    | some msg =>
      (.error (.fileSystemError ("Failed to archive current task: " ++ msg)
        taskFilePath "archive"), st)
    | none =>
      let name := archiveFileName now
      let st1 : TMState :=
        { st with archive := insertAssoc name (archivedContent now content) st.archive }
      match f.removeErr with
      | some msg =>
        (.error (.fileSystemError ("Failed to archive current task: " ++ msg)
          taskFilePath "archive"), st1)
      | none => (.ok (some ("archive/" ++ name)), { st1 with taskFile? := none })

/-- TaskManager.createNewTask on the fault-free filesystem path: archive the
current task file if one exists, then write the new task file.  Template
rendering (title, description, locale defaults) only determines the bytes of
the new file and is abstracted into the newContent argument. -/
def createNewTask (st : TMState) (now : DateTime) (newContent : String) :
    String × TMState :=
  match st.taskFile? with
  | some _ =>
    let (_, st') := archiveCurrentTask st now noFaults
    (taskFilePath, { st' with taskFile? := some newContent })
  | none => (taskFilePath, { st with taskFile? := some newContent })

/-- A serial sequence of createNewTask calls, each with the wall-clock
instant it observes and the content it writes. -/
def runCreates (st : TMState) : List (DateTime × String) → TMState
  | [] => st
  | (now, c) :: rest => runCreates (createNewTask st now c).2 rest

/-- Outcome record of one assistant execution (ClaudeTaskManager
ExecutionResult); the ISO timestamp string of the source is carried as the
parsed instant it denotes. -/
structure ExecResult where
  success : Bool
  output : String
  error : String
  timestamp : DateTime
  duration : Nat
deriving DecidableEq, Repr

/-- Formatted execution-log block appended by TaskManager.logExecution. -/
def logEntryStr (r : ExecResult) : String :=
  "\n\n## Execution Log - " ++ logTimestamp r.timestamp ++ " (" ++
    toString r.duration ++ "ms)\n\n**Status:** " ++
    (if r.success then "✅ Success" else "❌ Failed") ++ "\n\n" ++
    (if r.success then r.output else r.error) ++ "\n\n---\n"

/-- TaskManager.logExecution: fs.appendFile of the log block onto the active
task file.  fs.appendFile creates the file when it is absent, so the result
is always a present file and no error path exists. -/
def logExecution (file? : Option String) (r : ExecResult) : Option String :=
  some (file?.getD "" ++ logEntryStr r)

/-! ### TaskSplitter: response parsing, task-file surgery, process model

The two regexes of updateTaskFile and the line filters of parseSubtasks are
translated as deterministic scanners.  Each scanner implements the leftmost
match of the corresponding JavaScript pattern together with its greedy or
lazy backtracking, documented case by case. -/

/-- ASCII-case-insensitive character comparison (JS regex /i flag without
the unicode flag folds only ASCII letters on these literals). -/
def charIEq (a b : Char) : Bool := a.toLower = b.toLower

/-- Match a literal case-insensitively at the head of the input; return
the matched original characters and the remaining input. -/
def matchCI : List Char → List Char → Option (List Char × List Char)
  | [], cs => some ([], cs)
  | _ :: _, [] => none
  | p :: ps, c :: cs =>
    if charIEq p c then
      match matchCI ps cs with
      | some (m, rest) => some (c :: m, rest)
      | none => none
    else none

/-- First alternative of a regex alternation that matches at the head. -/
def matchAltCI : List (List Char) → List Char → Option (List Char × List Char)
  | [], _ => none
  | a :: as, cs =>
    match matchCI a cs with
    | some r => some r
    | none => matchAltCI as cs

/-- Index of the last line feed in a run of whitespace, if any. -/
def lastNlIdx : List Char → Option Nat
  | [] => none
  | c :: t =>
    match lastNlIdx t with
    | some k => some (k + 1)
    | none => if c = '\n' then some 0 else none

/-- Match the capture group 1 of the tasksPattern, the heading part
of (##\s+(Tasks|TASKS-localized)\s*\n), at the head of the input.
The \s+ and the alternation are deterministic because both literals start
with a non-whitespace character; the trailing \s*\n backtracks greedily, so
the line feed consumed is the last one inside the whitespace run following
the literal.  Returns (matched heading characters, rest). -/
def matchTasksHeading (cs : List Char) : Option (List Char × List Char) :=
  match cs with
  | '#' :: '#' :: rest =>
    let ws1 := rest.takeWhile jsIsWs
    if ws1.isEmpty then none
    else
      match matchAltCI ["Tasks".data, "タスク".data] (rest.drop ws1.length) with
      | none => none
      | some (lit, r2) =>
        let ws2 := r2.takeWhile jsIsWs
        match lastNlIdx ws2 with
        | none => none
        | some k =>
          some ('#' :: '#' :: (ws1 ++ lit ++ ws2.take (k + 1)), r2.drop (k + 1))
  | _ => none

/-- Lazy body of the tasksPattern: the shortest prefix of the input whose
remainder satisfies the lookahead (?=\n##|$), i.e. starts with a line feed
followed by two hashes, or is the end of the input. -/
def lazyBody : List Char → List Char × List Char
  | [] => ([], [])
  | '\n' :: '#' :: '#' :: t => ([], '\n' :: '#' :: '#' :: t)
  | c :: t =>
    let (b, r) := lazyBody t
    (c :: b, r)

/-- Leftmost match of the full tasksPattern in the input: returns the text
before the match, the captured heading (group 1), the lazily matched body,
and the text after the match (which the lookahead leaves unconsumed). -/
def findTasksFrom : List Char → Option (List Char × List Char × List Char × List Char)
  | [] => none
  | c :: t =>
    match matchTasksHeading (c :: t) with
    | some (g1, rest) =>
      let (body, after) := lazyBody rest
      some ([], g1, body, after)
    | none =>
      match findTasksFrom t with
      | some (pre, g1, body, after) => some (c :: pre, g1, body, after)
      | none => none

/-- Match the notesPattern (\n##\s+(Notes|NOTES-localized)) at the head of
the input; returns (matched text, rest). -/
def matchNotesAt : List Char → Option (List Char × List Char)
  | '\n' :: '#' :: '#' :: rest =>
    let ws1 := rest.takeWhile jsIsWs
    if ws1.isEmpty then none
    else
      match matchAltCI ["Notes".data, "メモ".data] (rest.drop ws1.length) with
      | some (lit, r2) => some ('\n' :: '#' :: '#' :: (ws1 ++ lit), r2)
      | none => none
  | _ => none

/-- Leftmost match of the notesPattern: text before, matched text, rest. -/
def findNotesFrom : List Char → Option (List Char × List Char × List Char)
  | [] => none
  | c :: t =>
    match matchNotesAt (c :: t) with
    | some (m, rest) => some ([], m, rest)
    | none =>
      match findNotesFrom t with
      | some (pre, m, rest) => some (c :: pre, m, rest)
      | none => none

/-- TaskSplitter.updateTaskFile: replace the body of an existing Tasks
section with one unchecked checkbox line per subtask; otherwise insert a new
Tasks section immediately before a Notes section; otherwise append one at
the end of the file. -/
def updateTaskFile (content : String) (subtasks : List String) : String :=
  let tasksSection := String.intercalate "\n" (subtasks.map (fun t => "- [ ] " ++ t))
  match findTasksFrom content.data with
  | some (before, g1, _body, after) =>
    ⟨before ++ g1 ++ tasksSection.data ++ '\n' :: after⟩
  | none =>
    match findNotesFrom content.data with
    | some (before, m, after) =>
      ⟨before ++ ("\n## Tasks\n" ++ tasksSection ++ "\n\n").data ++ m ++ after⟩
    | none => content ++ "\n\n## Tasks\n" ++ tasksSection ++ "\n"

/-- Leading enumeration-marker class of parseSubtasks
(digits, dot, dash, asterisk, closing parenthesis). -/
def isEnumMark (c : Char) : Bool :=
  c.isDigit || c = '.' || c = '-' || c = '*' || c = ')'

/-- One application of replace(leading-enumeration-regex, empty): when the
line starts with a marker character, remove the maximal marker run and the
whitespace run after it; otherwise the line is unchanged. -/
def stripEnum : List Char → List Char
  | [] => []
  | c :: t =>
    if isEnumMark c then ((c :: t).dropWhile isEnumMark).dropWhile jsIsWs
    else c :: t

/-- TaskSplitter.parseSubtasks: split the response on line feeds, trim each
line, drop empty lines, drop heading and code-fence lines, strip leading
enumeration markers, trim, and drop lines that became empty. -/
def parseSubtasks (response : String) : List String :=
  ((((((splitNl response.data).map jsTrimList).filter
      (fun l => !l.isEmpty)).filter
      (fun l => !(['#'].isPrefixOf l))).filter
      (fun l => !("```".data.isPrefixOf l))).map
      (fun l => jsTrimList (stripEnum l))).filter (fun l => !l.isEmpty)
    |>.map (fun l => (⟨l⟩ : String))

/-- Observed behaviour of one spawned assistant process: whether the spawn
itself errored, whether writing the prompt to stdin errored, when (in
milliseconds after spawn) the close event fires if ever, the exit code at
close, and the captured output streams. -/
structure ProcBehavior where
  launchErr : Option String
  stdinErr : Option String
  closeTime : Option Nat
  exitCode : Int
  stdout : String
  stderr : String
deriving DecidableEq, Repr

/-- Error taxonomy of TaskSplitter.callClaude (each rejection carries the
Error message the source constructs). -/
inductive SplitCallError where
  | timeout (message : String)
  | rateLimited (message : String)
  | execFailed (message : String)
  | launchFailed (message : String)
  | stdinFailed (message : String)
deriving DecidableEq, Repr

/-- Message carried by a callClaude rejection. -/
def SplitCallError.message : SplitCallError → String
  | .timeout m => m
  | .rateLimited m => m
  | .execFailed m => m
  | .launchFailed m => m
  | .stdinFailed m => m

/-- Hard timeout of split mode: five minutes, fixed at the call site. -/
def splitTimeoutMs : Nat := 300000

/-- TaskSplitter.callClaude: spawn-failure and stdin-failure events reject
first; otherwise the timer set at spawn time races the close event.  The
timer fires at timeoutMs, kills the process and rejects with the timeout
error, and the timedOut flag makes a later close event return early, so any
buffered stdout is discarded.  A close before the timer clears the timer;
exit code zero resolves with trimmed stdout, a nonzero code rejects with the
rate-limit error when captured stdout contains a limit marker and with the
generic execution error otherwise. -/
def callClaude (b : ProcBehavior) (timeoutMs : Nat) : Except SplitCallError String :=
  match b.launchErr with
  | some m => .error (.launchFailed ("Failed to start Claude: " ++ m))
  | none =>
    match b.stdinErr with
    | some m => .error (.stdinFailed ("Stdin error: " ++ m))
    | none =>
      match b.closeTime with
      | none =>
        .error (.timeout ("Claude CLI timed out after " ++
          toString (timeoutMs / 1000) ++ " seconds"))
      | some t =>
        if timeoutMs ≤ t then
          .error (.timeout ("Claude CLI timed out after " ++
            toString (timeoutMs / 1000) ++ " seconds"))
        else if b.exitCode = 0 then .ok (jsTrim b.stdout)
        else if strIncludes b.stdout "hit your limit" || strIncludes b.stdout "limit" then
          .error (.rateLimited
            "Claude API limit reached. Please wait until the limit resets (usually 6pm local time).")
        else
          .error (.execFailed ("Claude failed with code " ++ toString b.exitCode ++
            ": " ++ (if b.stderr.isEmpty then b.stdout else b.stderr)))

/-- Milliseconds after spawn at which the callClaude promise settles:
immediately on launch or stdin failure, at the close event when it beats the
timer, and at the timer expiry otherwise. -/
def resolveTimeMs (b : ProcBehavior) (timeoutMs : Nat) : Nat :=
  match b.launchErr, b.stdinErr with
  | some _, _ => 0
  | none, some _ => 0
  | none, none =>
    match b.closeTime with
    | none => timeoutMs
    | some t => min t timeoutMs

/-- Result record of TaskSplitter.splitTask. -/
structure SplitResult where
  success : Bool
  subtasks : List String
  error? : Option String
deriving DecidableEq, Repr

/-- TaskSplitter.splitTask: requires an active task file; calls the
assistant and parses its response; only a nonempty parsed subtask list
rewrites the task file.  Every callClaude rejection is caught and turned
into a failed SplitResult carrying the message, leaving the file untouched.
The prompt built from the file content (extractTitle, extractDescription,
buildPrompt, and the requested count) only determines what is written to
the child process stdin and does not constrain the observed behaviour
record, so it is not modelled.  Returns the result together with the task
file content after the call. -/
def splitTask (taskFile? : Option String) (b : ProcBehavior) :
    Except String (SplitResult × Option String) :=
  match taskFile? with
  | none => .error "No task.md file found"
  | some content =>
    match callClaude b splitTimeoutMs with
    | .error e =>
      .ok ({ success := false, subtasks := [], error? := some e.message }, some content)
    | .ok response =>
      let subtasks := parseSubtasks response
      if 0 < subtasks.length then
        .ok ({ success := true, subtasks := subtasks, error? := none },
          some (updateTaskFile content subtasks))
      else
        .ok ({ success := true, subtasks := subtasks, error? := none }, some content)

/-! ### ProgressTracker -/

/-- One checklist item parsed from the task file. -/
structure TaskItem where
  text : String
  completed : Bool
deriving DecidableEq, Repr

/-- Result of ProgressTracker.parseProgress. -/
structure ProgressResult where
  total : Nat
  completed : Nat
  percentage : Nat
  tasks : List TaskItem
  title : String
deriving DecidableEq, Repr

/-- Per-line match of the checkbox pattern
(leading whitespace, dash, whitespace, bracket containing space or x or X,
whitespace, remaining text).  On a single newline-free line each whitespace
quantifier is deterministic except the final one: when nothing follows the
whitespace run after the bracket, the greedy run gives one character back to
the mandatory remaining-text group, so a line ending in two or more
whitespace characters after the bracket still matches with empty trimmed
text.  The multiline anchors of the source pattern make it scan line by
line over newline-separated text. -/
def matchCheckboxLine (l : List Char) : Option TaskItem :=
  match trimLeft l with
  | '-' :: r1 =>
    let ws1 := r1.takeWhile jsIsWs
    if ws1.isEmpty then none
    else
      match r1.drop ws1.length with
      | '[' :: m :: ']' :: r3 =>
        if m = ' ' || m = 'x' || m = 'X' then
          let ws2 := r3.takeWhile jsIsWs
          let r4 := r3.drop ws2.length
          if !r4.isEmpty then
            if ws2.isEmpty then none
            else some ⟨⟨jsTrimList r4⟩, m.toLower = 'x'⟩
          else if 2 ≤ ws2.length then some ⟨"", m.toLower = 'x'⟩
          else none
        else none
      | _ => none
  | _ => none

/-- Per-line match of the title pattern (hash, whitespace, remaining text),
with the same final-quantifier backtracking as the checkbox pattern; the
capture is returned untrimmed, as the source uses it. -/
def matchTitleLine (l : List Char) : Option (List Char) :=
  match l with
  | '#' :: r1 =>
    let ws1 := r1.takeWhile jsIsWs
    let r2 := r1.drop ws1.length
    if ws1.isEmpty then none
    else if !r2.isEmpty then some r2
    else if 2 ≤ ws1.length then
      match ws1.getLast? with
      | some c => some [c]
      | none => none
    else none
  | _ => none

/-- Fuel-driven halving count (structural recursion so that kernel
evaluation works; the fuel n always suffices). -/
def log2Fuel : Nat → Nat → Nat
  | 0, _ => 0
  | fuel + 1, n => if 2 ≤ n then log2Fuel fuel (n / 2) + 1 else 0

/-- Floor of the base-two logarithm of a positive natural. -/
def natLog2 (n : Nat) : Nat := log2Fuel n n

/-- Round nn/dd (dd positive) to the nearest integer, ties to even: the
IEEE-754 default rounding of a scaled significand. -/
def roundHalfEven (nn dd : Nat) : Nat :=
  let q := nn / dd
  let r := nn % dd
  if 2 * r < dd then q
  else if dd < 2 * r then q + 1
  else if q % 2 = 0 then q else q + 1

/-- Floor of the base-two logarithm of the positive rational n/d. -/
def floorLog2Q (n d : Nat) : Int :=
  let k : Int := (natLog2 n : Int) - (natLog2 d : Int)
  let ge : Bool :=
    if 0 ≤ k then decide (d * 2 ^ k.toNat ≤ n) else decide (d ≤ n * 2 ^ (-k).toNat)
  if ge then k else k - 1

/-- IEEE-754 binary64 rounding (round to nearest, ties to even) of the
nonnegative rational n/d, returned as an exact numerator/denominator pair:
the value is scaled so its unit in the last place is one, rounded half to
even, and scaled back.  The exponent clamp at minus 1074 covers subnormals;
the quotients reaching this function stay far below the overflow range. -/
def fl64 (n d : Nat) : Nat × Nat :=
  if n = 0 || d = 0 then (0, 1)
  else
    let e : Int := max (floorLog2Q n d - 52) (-1074)
    if 0 ≤ e then
      (roundHalfEven n (d * 2 ^ e.toNat) * 2 ^ e.toNat, 1)
    else
      (roundHalfEven (n * 2 ^ (-e).toNat) d, 2 ^ (-e).toNat)

/-- Math.round((completed / total) * 100) exactly as the program computes
it in binary64 floating point: both counts as double values, a correctly
rounded division, a correctly rounded multiplication by the exact literal
100, and the final ECMAScript Math.round, which rounds the exact value of
its double argument half-up.  This can differ by one from the exact
rational rounding of 100 * completed / total: for 23 of 40 the double
product is just below 57.5 and the program returns 57, not 58. -/
def jsPercentage (completed total : Nat) : Nat :=
  let c := fl64 completed 1
  let t := fl64 total 1
  let q := fl64 (c.1 * t.2) (c.2 * t.1)
  let p := fl64 (q.1 * 100) q.2
  (2 * p.1 + p.2) / (2 * p.2)

/-- ProgressTracker.parseProgress: title from the first matching title line,
one item per matching checkbox line in document order, completed iff the
bracket holds a lowercase-folded x, percentage zero when there are no
items. -/
def parseProgress (content : String) : ProgressResult :=
  let lines := splitNl content.data
  let title :=
    match (lines.filterMap matchTitleLine).head? with
    | some t => (⟨t⟩ : String)
    | none => "Untitled Task"
  let tasks := lines.filterMap matchCheckboxLine
  let total := tasks.length
  let completed := (tasks.filter (·.completed)).length
  let percentage := if 0 < total then jsPercentage completed total else 0
  ⟨total, completed, percentage, tasks, title⟩

/-! ### HistoryManager -/

/-- One history entry (the fs.stat size field is not modelled: no claim
mentions it and it depends only on the stored content). -/
structure TaskHistoryItem where
  file : String
  title : String
  date : String
deriving DecidableEq, Repr

/-- Leftmost match of the unanchored title regex (hash, space, remaining
text) used on archived content: scans every position, requires a hash, a
space and at least one character before the end of the line. -/
def hashTitleFrom : List Char → Option (List Char)
  | '#' :: ' ' :: c :: rest =>
    if c ≠ '\n' then some ((c :: rest).takeWhile (· ≠ '\n'))
    else hashTitleFrom (' ' :: c :: rest)
  | _ :: t => hashTitleFrom t
  | [] => none

/-- Title of an archived file, with the literal fallback of the source. -/
def firstHashTitle (content : String) : String :=
  match hashTitleFrom content.data with
  | some t => ⟨t⟩
  | none => "Untitled"

/-- file.split(underscore)[0]: the filename prefix before the first
underscore, used as the displayed date. -/
def fileDate (f : String) : String := ⟨f.data.takeWhile (· ≠ '_')⟩

/-- Directory read of an archived file by name (empty content as the
defensive default; getHistory only reads names it listed). -/
def lookupContent (archive : List (String × String)) (k : String) : String :=
  match archive.lookup k with
  | some v => v
  | none => ""

/-- Code-unit lexicographic comparison, the default comparator of
JavaScript Array.prototype.sort on these filenames. -/
def charsLe : List Char → List Char → Bool
  | [], _ => true
  | _ :: _, [] => false
  | a :: as, b :: bs =>
    if a < b then true
    else if b < a then false
    else charsLe as bs

/-- String form of the default sort comparator. -/
def strLeB (a b : String) : Bool := charsLe a.data b.data

/-- HistoryManager.getHistory over the archive directory listing: keep the
names with the fixed task suffix, sort ascending by the default code-unit
comparator, reverse, truncate to the limit, and build one entry per
remaining name.  An absent archive directory is the empty listing. -/
def getHistory (archive : List (String × String)) (limit : Nat) : List TaskHistoryItem :=
  let files := archive.map Prod.fst
  let taskFiles :=
    ((((files.filter (fun f => strEndsWith f "_task.md")).insertionSort
      (fun a b => strLeB a b = true)).reverse).take limit)
  taskFiles.map (fun f => ⟨f, firstHashTitle (lookupContent archive f), fileDate f⟩)


/-! ### Lexicographic order facts about the filename rendering -/

/-- Lexicographic comparison is preserved under a common prefix. -/
theorem lex_append_left (u : List Char) {s t : List Char}
    (h : List.Lex (· < ·) s t) : List.Lex (· < ·) (u ++ s) (u ++ t) := by
  induction u with
  | nil => simpa using h
  | cons c cs ih => exact List.Lex.cons ih

/-- Equal-length lexicographically ordered chunks stay ordered after
appending arbitrary suffixes. -/
theorem lex_append_of_length_eq {p q : List Char}
    (h : List.Lex (· < ·) p q) (hl : p.length = q.length) (u v : List Char) :
    List.Lex (· < ·) (p ++ u) (q ++ v) := by
  induction h with
  | nil => simp at hl
  | rel hr => exact List.Lex.rel hr
  | cons _ ih =>
    refine List.Lex.cons ?_
    exact ih (by simpa using hl)

/-- padDigits always renders exactly w characters. -/
theorem padDigits_length (w n : Nat) : (padDigits w n).length = w := by
  induction w generalizing n with
  | zero => rfl
  | succ w ih => simp [padDigits, ih]

/-- Digit characters are ordered like the digits they render. -/
theorem digitChar_lt {a b : Nat} (hb : b < 10) (hab : a < b) :
    Nat.digitChar a < Nat.digitChar b := by
  have ha : a < 10 := lt_trans hab hb
  interval_cases a <;> interval_cases b <;> simp_all <;> decide

/-- Fixed-width renderings of in-range numbers compare like the numbers. -/
theorem padDigits_lt {w a b : Nat} (hab : a < b) (hb : b < 10 ^ w) :
    List.Lex (· < ·) (padDigits w a) (padDigits w b) := by
  induction w generalizing a b with
  | zero => omega
  | succ w ih =>
    have hb' : b / 10 < 10 ^ w := by
      have : b < 10 ^ w * 10 := by
        have : 10 ^ (w + 1) = 10 ^ w * 10 := by ring
        omega
      exact Nat.div_lt_of_lt_mul (by omega)
    have hle : a / 10 ≤ b / 10 := Nat.div_le_div_right (Nat.le_of_lt hab)
    rcases lt_or_eq_of_le hle with hdiv | hdiv
    · exact lex_append_of_length_eq (ih hdiv hb')
        (by simp [padDigits_length]) _ _
    · have hmod : a % 10 < b % 10 := by
        have h1 := Nat.div_add_mod a 10
        have h2 := Nat.div_add_mod b 10
        omega
      have : padDigits (w + 1) a =
          padDigits w (b / 10) ++ [Nat.digitChar (a % 10)] := by
        simp [padDigits, hdiv]
      rw [this, padDigits]
      exact lex_append_left _ (List.Lex.rel (digitChar_lt (Nat.mod_lt b (by omega)) hmod))

/-- String comparison of two mk-built strings is lexicographic comparison of
their character data. -/
theorem string_lt_iff_lex {l m : List Char} :
    (⟨l⟩ : String) < (⟨m⟩ : String) ↔ List.Lex (· < ·) l m := by
  rw [String.lt_iff_toList_lt]
  exact Iff.rfl

/-- Chronologically ordered valid millisecond timestamps yield strictly
lexicographically ordered archive filenames. -/
theorem archiveFileName_lt {d1 d2 : DateTime} (h : dtLt d1 d2)
    (v1 : d1.Valid) (v2 : d2.Valid) :
    archiveFileName d1 < archiveFileName d2 := by
  obtain ⟨y1, mo1, dy1, h1, mi1, s1, ms1⟩ := d1
  obtain ⟨y2, mo2, dy2, h2, mi2, s2, ms2⟩ := d2
  obtain ⟨vy1, vmo1, vd1, vh1, vmi1, vs1, vms1⟩ := v1
  obtain ⟨vy2, vmo2, vd2, vh2, vmi2, vs2, vms2⟩ := v2
  rw [archiveFileName, archiveFileName, string_lt_iff_lex,
    archiveNameData, archiveNameData]
  simp only at *
  rcases h with hy | ⟨ey, h⟩
  · exact lex_append_of_length_eq (padDigits_lt hy (by norm_num; omega))
      (by simp [padDigits_length]) _ _
  subst ey
  refine lex_append_left _ (List.Lex.cons ?_)
  rcases h with hmo | ⟨emo, h⟩
  · exact lex_append_of_length_eq (padDigits_lt hmo (by norm_num; omega))
      (by simp [padDigits_length]) _ _
  subst emo
  refine lex_append_left _ (List.Lex.cons ?_)
  rcases h with hd | ⟨ed, h⟩
  · exact lex_append_of_length_eq (padDigits_lt hd (by norm_num; omega))
      (by simp [padDigits_length]) _ _
  subst ed
  refine lex_append_left _ (List.Lex.cons ?_)
  rcases h with hh | ⟨eh, h⟩
  · exact lex_append_of_length_eq (padDigits_lt hh (by norm_num; omega))
      (by simp [padDigits_length]) _ _
  subst eh
  refine lex_append_left _ (List.Lex.cons ?_)
  rcases h with hmi | ⟨emi, h⟩
  · exact lex_append_of_length_eq (padDigits_lt hmi (by norm_num; omega))
      (by simp [padDigits_length]) _ _
  subst emi
  refine lex_append_left _ (List.Lex.cons ?_)
  rcases h with hs | ⟨es, hms⟩
  · exact lex_append_of_length_eq (padDigits_lt hs (by norm_num; omega))
      (by simp [padDigits_length]) _ _
  subst es
  refine lex_append_left _ (List.Lex.cons ?_)
  exact lex_append_of_length_eq (padDigits_lt hms (by norm_num; omega))
    (by simp [padDigits_length]) _ _

/-- Distinct chronologically ordered timestamps never collide on filenames. -/
theorem archiveFileName_ne {d1 d2 : DateTime} (h : dtLt d1 d2)
    (v1 : d1.Valid) (v2 : d2.Valid) :
    archiveFileName d1 ≠ archiveFileName d2 :=
  ne_of_lt (archiveFileName_lt h v1 v2)
/-! ### Archive bookkeeping lemmas -/

/-- Writing a fresh name into the directory listing adds one entry. -/
theorem insertAssoc_length_of_not_mem {k v : String} :
    ∀ {l : List (String × String)}, k ∉ l.map Prod.fst →
      (insertAssoc k v l).length = l.length + 1 := by
  intro l
  induction l with
  | nil => intro _; rfl
  | cons p t ih =>
    intro h
    simp only [List.map_cons, List.mem_cons] at h
    push_neg at h
    simp only [insertAssoc, if_neg h.1, List.length_cons, ih h.2]

/-- Writing a fresh name appends it to the listed names. -/
theorem insertAssoc_keys_of_not_mem {k v : String} :
    ∀ {l : List (String × String)}, k ∉ l.map Prod.fst →
      (insertAssoc k v l).map Prod.fst = l.map Prod.fst ++ [k] := by
  intro l
  induction l with
  | nil => intro _; rfl
  | cons p t ih =>
    intro h
    simp only [List.map_cons, List.mem_cons] at h
    push_neg at h
    simp only [insertAssoc, if_neg h.1, List.map_cons, ih h.2, List.cons_append]

/-- A written entry can be read back by its name. -/
theorem insertAssoc_lookup (k v : String) :
    ∀ (l : List (String × String)), (insertAssoc k v l).lookup k = some v := by
  intro l
  induction l with
  | nil => simp [insertAssoc, List.lookup]
  | cons p t ih =>
    by_cases h : k = p.1
    · simp [insertAssoc, h, List.lookup]
    · have hb : (k == p.1) = false := by simpa using h
      simp only [insertAssoc]
      rw [if_neg h]
      simp only [List.lookup, hb]
      exact ih

/-- State after one createNewTask when an active task is present: the active
file is rotated into the archive under the timestamped name and the new
content becomes the active file. -/
theorem createNewTask_some (st : TMState) (c : String) (now : DateTime)
    (nc : String) (hst : st.taskFile? = some c) :
    (createNewTask st now nc).2 =
      ⟨some nc, insertAssoc (archiveFileName now) (archivedContent now c) st.archive⟩ := by
  obtain ⟨tf, ar⟩ := st
  cases hst
  rfl

/-! ### Claim C1 (concrete collision counterexample) -/

/-- C1 counterexample: three createNewTask calls from a fresh root where the
second and third rotate in the same millisecond leave one archive file, not
two: the third rotate reuses the second rotate's filename and fs.writeFile
overwrites that entry. -/
theorem c1_archive_count_ce :
    (runCreates freshTM [(⟨2026, 1, 2, 3, 4, 5, 6⟩, "A"),
      (⟨2026, 1, 2, 3, 4, 5, 7⟩, "B"),
      (⟨2026, 1, 2, 3, 4, 5, 7⟩, "C")]).archive.length = 1 ∧ (1 : Nat) ≠ 3 - 1 :=
  ⟨by decide, by decide⟩

-- The symbolic C1 development continues at the end of the file, where the
-- filename renderers are made irreducible for unification performance.

/-! ### Claim C2 -/

/-- C2 counterexample: operation A completes before operation B begins (they
are distinct real instants), yet both fall in the same millisecond, so the
generated archive filenames are identical and the filename of A is not
strictly smaller than the filename of B: millisecond resolution does not
guarantee distinct names under rapid succession. -/
theorem c2_archive_name_order_ce :
    instantLt ⟨⟨2026, 1, 2, 3, 4, 5, 6⟩, 100⟩ ⟨⟨2026, 1, 2, 3, 4, 5, 6⟩, 900⟩ ∧
    archiveFileName (⟨2026, 1, 2, 3, 4, 5, 6⟩ : DateTime) =
      archiveFileName (⟨2026, 1, 2, 3, 4, 5, 6⟩ : DateTime) ∧
    ¬ archiveFileName (⟨2026, 1, 2, 3, 4, 5, 6⟩ : DateTime) <
      archiveFileName (⟨2026, 1, 2, 3, 4, 5, 6⟩ : DateTime) :=
  ⟨by decide, rfl, lt_irrefl _⟩

/-- C2 (amended): for two rotate operations where A completes before B
begins, the filename generated for A is strictly lexicographically smaller
than the filename generated for B whenever the captured millisecond
timestamps differ; when both operations fall within the same millisecond the
filenames coincide, so the millisecond suffix orders names but does not make
them distinct under rapid succession. -/
theorem c2_archive_name_order (a b : Instant) (h : instantLt a b)
    (va : a.dt.Valid) (vb : b.dt.Valid) :
    (a.dt ≠ b.dt → archiveFileName a.dt < archiveFileName b.dt) ∧
    (a.dt = b.dt → archiveFileName a.dt = archiveFileName b.dt) := by
  constructor
  · intro hne
    rcases h with h | ⟨he, _⟩
    · exact archiveFileName_lt h va vb
    · exact absurd he hne
  · intro he
    rw [he]

/-- C2 witness: two ordered instants one millisecond apart get strictly
ordered filenames. -/
theorem c2_archive_name_order_witness :
    instantLt ⟨⟨2026, 1, 2, 3, 4, 5, 6⟩, 0⟩ ⟨⟨2026, 1, 2, 3, 4, 5, 7⟩, 0⟩ ∧
    ((⟨⟨2026, 1, 2, 3, 4, 5, 6⟩, 0⟩ : Instant).dt ≠
        (⟨⟨2026, 1, 2, 3, 4, 5, 7⟩, 0⟩ : Instant).dt →
      archiveFileName (⟨⟨2026, 1, 2, 3, 4, 5, 6⟩, 0⟩ : Instant).dt <
        archiveFileName (⟨⟨2026, 1, 2, 3, 4, 5, 7⟩, 0⟩ : Instant).dt) :=
  ⟨by decide,
    (c2_archive_name_order ⟨⟨2026, 1, 2, 3, 4, 5, 6⟩, 0⟩ ⟨⟨2026, 1, 2, 3, 4, 5, 7⟩, 0⟩
      (by decide) (by decide) (by decide)).1⟩

/-! ### Claim C3 -/

/-- C3 counterexample: with the archive copy written successfully and the
delete of the original failing, archiveCurrentTask raises a FileSystemError
to the caller instead of returning the archive path as success. -/
theorem c3_rotate_delete_failure_ce :
    (archiveCurrentTask ⟨some "# T\n", []⟩ ⟨2026, 1, 2, 3, 4, 5, 6⟩
        ⟨none, some "EPERM"⟩).1 =
      Except.error (TMError.fileSystemError
        "Failed to archive current task: EPERM" "task.md" "archive") := by
  rfl

/-- C3 (amended): if the write of the archive copy succeeds but the delete
of the original active task file fails, the rotate is reported as a failure:
the thrown error is caught and re-thrown as a FileSystemError wrapping the
delete error, while the archive retains the copy and the active task file
remains in place (so no data is lost, but the caller sees an error, not the
archive path). -/
theorem c3_rotate_delete_failure (content : String) (archive : List (String × String))
    (now : DateTime) (msg : String) :
    (archiveCurrentTask ⟨some content, archive⟩ now ⟨none, some msg⟩).1 =
      Except.error (TMError.fileSystemError
        ("Failed to archive current task: " ++ msg) taskFilePath "archive") ∧
    ((archiveCurrentTask ⟨some content, archive⟩ now ⟨none, some msg⟩).2).taskFile? =
      some content ∧
    ((archiveCurrentTask ⟨some content, archive⟩ now ⟨none, some msg⟩).2).archive.lookup
      (archiveFileName now) = some (archivedContent now content) :=
  ⟨rfl, rfl, insertAssoc_lookup _ _ _⟩

/-! ### Claim C4 -/

/-- C4 counterexample: appending an execution-log entry while the active
task file is absent does not fail with any error; fs.appendFile silently
creates the file, whose content is exactly the formatted log block. -/
theorem c4_append_log_absent_ce :
    logExecution none ⟨true, "Claude Code execution completed", "",
        ⟨2026, 1, 2, 3, 4, 5, 6⟩, 5⟩ =
      some "\n\n## Execution Log - 2026-01-02 03:04:05 (5ms)\n\n**Status:** ✅ Success\n\nClaude Code execution completed\n\n---\n" := by
  decide

/-- C4 (amended): logExecution appends unconditionally and has no failure
path: when the active task file is absent it silently creates the file
containing only the formatted log block (no NoActiveTask error exists on
this path), and when the file is present the block is appended to the
existing content. -/
theorem c4_append_log_absent (r : ExecResult) :
    logExecution none r = some (logEntryStr r) ∧
    ∀ c : String, logExecution (some c) r = some (c ++ logEntryStr r) :=
  ⟨rfl, fun _ => rfl⟩

/-! ### Claim C5 -/

/-- C5: when the assistant process never exits, split fails with the Timeout
error at the five-minute budget (never later), discards any buffered output
(the result carries no subtasks), and leaves the active task file content
unchanged. -/
theorem c5_split_timeout (content : String) (b : ProcBehavior)
    (hl : b.launchErr = none) (hs : b.stdinErr = none)
    (hc : ∀ t, b.closeTime = some t → splitTimeoutMs ≤ t) :
    splitTask (some content) b =
      Except.ok ({ success := false, subtasks := [],
                   error? := some "Claude CLI timed out after 300 seconds" },
        some content) ∧
    resolveTimeMs b splitTimeoutMs = splitTimeoutMs ∧
    resolveTimeMs b splitTimeoutMs ≤ splitTimeoutMs := by
  have hmsg : ("Claude CLI timed out after " ++
      toString (splitTimeoutMs / 1000) ++ " seconds") =
      "Claude CLI timed out after 300 seconds" := by decide
  cases hct : b.closeTime with
  | none =>
    have h2 : resolveTimeMs b splitTimeoutMs = splitTimeoutMs := by
      simp only [resolveTimeMs, hl, hs, hct]
    refine ⟨?_, h2, le_of_eq h2⟩
    simp only [splitTask, callClaude, hl, hs, hct, SplitCallError.message, hmsg]
  | some t =>
    have hle : splitTimeoutMs ≤ t := hc t hct
    have h2 : resolveTimeMs b splitTimeoutMs = splitTimeoutMs := by
      simp only [resolveTimeMs, hl, hs, hct]
      exact Nat.min_eq_right hle
    refine ⟨?_, h2, le_of_eq h2⟩
    simp only [splitTask, callClaude, hl, hs, hct, SplitCallError.message, hmsg,
      if_pos hle]

/-- C5 witness: a process that buffers output but never closes. -/
theorem c5_split_timeout_witness :
    (⟨none, none, none, 0, "partial buffered output", ""⟩ : ProcBehavior).closeTime
        = none ∧
    splitTask (some "# T\n") ⟨none, none, none, 0, "partial buffered output", ""⟩ =
      Except.ok ({ success := false, subtasks := [],
                   error? := some "Claude CLI timed out after 300 seconds" },
        some "# T\n") :=
  ⟨rfl, (c5_split_timeout "# T\n" ⟨none, none, none, 0, "partial buffered output", ""⟩
    rfl rfl (fun _ h => Option.noConfusion h)).1⟩

/-! ### Claim C6 -/

/-- C6: when the assistant process exits nonzero before the timeout and its
captured stdout contains the rate-limit marker, callClaude fails with the
distinct rate-limited error carrying the wait-for-reset message, not with
the generic execution-failure error. -/
theorem c6_split_rate_limited (b : ProcBehavior) (t : Nat)
    (hl : b.launchErr = none) (hs : b.stdinErr = none) (hc : b.closeTime = some t)
    (ht : t < splitTimeoutMs) (hcode : b.exitCode ≠ 0)
    (hm : strIncludes b.stdout "hit your limit" = true) :
    callClaude b splitTimeoutMs =
      Except.error (SplitCallError.rateLimited
        "Claude API limit reached. Please wait until the limit resets (usually 6pm local time).") ∧
    ∀ m, callClaude b splitTimeoutMs ≠ Except.error (SplitCallError.execFailed m) := by
  have h1 : callClaude b splitTimeoutMs =
      Except.error (SplitCallError.rateLimited
        "Claude API limit reached. Please wait until the limit resets (usually 6pm local time).") := by
    simp only [callClaude, hl, hs, hc]
    rw [if_neg (not_le.mpr ht), if_neg hcode, if_pos]
    rw [hm]
    rfl
  refine ⟨h1, ?_⟩
  intro m hcontra
  rw [h1] at hcontra
  simp at hcontra

/-- C6 witness: a nonzero exit at ten milliseconds whose stdout reports the
usage limit. -/
theorem c6_split_rate_limited_witness :
    strIncludes (⟨none, none, some 10, 1,
        "You have hit your limit for today.", ""⟩ : ProcBehavior).stdout
      "hit your limit" = true ∧
    callClaude ⟨none, none, some 10, 1, "You have hit your limit for today.", ""⟩
        splitTimeoutMs =
      Except.error (SplitCallError.rateLimited
        "Claude API limit reached. Please wait until the limit resets (usually 6pm local time).") :=
  ⟨by decide,
    (c6_split_rate_limited ⟨none, none, some 10, 1,
        "You have hit your limit for today.", ""⟩ 10
      rfl rfl rfl (by decide) (by decide) (by decide)).1⟩

/-! ### Claim C10 -/

/-- C10: when the assistant call succeeds but zero subtasks are parsed from
its response, splitTask returns success with an empty subtask list and the
active task file is left unchanged: the re-injection step is skipped for an
empty parsed list. -/
theorem c10_split_empty_subtasks (content response : String) (b : ProcBehavior)
    (hok : callClaude b splitTimeoutMs = Except.ok response)
    (hempty : parseSubtasks response = []) :
    splitTask (some content) b =
      Except.ok ({ success := true, subtasks := [], error? := none }, some content) := by
  simp only [splitTask, hok, hempty]
  rfl

/-- C10 witness: a zero-exit response consisting only of a heading line and
a code fence parses to zero subtasks and leaves the file bytes alone. -/
theorem c10_split_empty_subtasks_witness :
    callClaude ⟨none, none, some 10, 0, "# only a heading\n```", ""⟩ splitTimeoutMs =
      Except.ok "# only a heading\n```" ∧
    parseSubtasks "# only a heading\n```" = [] ∧
    splitTask (some "# My Task\n\n## Tasks\n- [ ] old\n")
        ⟨none, none, some 10, 0, "# only a heading\n```", ""⟩ =
      Except.ok ({ success := true, subtasks := [], error? := none },
        some "# My Task\n\n## Tasks\n- [ ] old\n") :=
  ⟨rfl, rfl,
    c10_split_empty_subtasks "# My Task\n\n## Tasks\n- [ ] old\n"
      "# only a heading\n```" ⟨none, none, some 10, 0, "# only a heading\n```", ""⟩
      rfl rfl⟩

/-! ### Claim C7 -/

/-- C7: splitting a task whose assistant response is the fixed text of three
lines Do X, Do Y, Do Z succeeds with exactly those three subtasks, replaces
the previous body of the Tasks section with the three unchecked checkbox
lines, and re-reading the resulting active file yields exactly three
unchecked checklist items Do X, Do Y, Do Z in that order. -/
theorem c7_split_round_trip :
    splitTask
      (some "# My Task\n\n## Description\nSomething to do\n\n## Tasks\n- [ ] Old item 1\n- [x] Old item 2\n\n## Notes\n<!-- notes -->\n")
      ⟨none, none, some 10, 0, "Do X\nDo Y\nDo Z", ""⟩ =
      Except.ok ({ success := true, subtasks := ["Do X", "Do Y", "Do Z"], error? := none },
        some "# My Task\n\n## Description\nSomething to do\n\n## Tasks\n- [ ] Do X\n- [ ] Do Y\n- [ ] Do Z\n\n## Notes\n<!-- notes -->\n") ∧
    (parseProgress "# My Task\n\n## Description\nSomething to do\n\n## Tasks\n- [ ] Do X\n- [ ] Do Y\n- [ ] Do Z\n\n## Notes\n<!-- notes -->\n").tasks =
      [⟨"Do X", false⟩, ⟨"Do Y", false⟩, ⟨"Do Z", false⟩] ∧
    (parseProgress "# My Task\n\n## Description\nSomething to do\n\n## Tasks\n- [ ] Do X\n- [ ] Do Y\n- [ ] Do Z\n\n## Notes\n<!-- notes -->\n").total = 3 ∧
    (parseProgress "# My Task\n\n## Description\nSomething to do\n\n## Tasks\n- [ ] Do X\n- [ ] Do Y\n- [ ] Do Z\n\n## Notes\n<!-- notes -->\n").completed = 0 :=
  ⟨rfl, by decide, by decide, by decide⟩

/-! ### Claim C8 -/

/-- Length of a filterMap counts the inputs the function accepts. -/
theorem length_filterMap_eq_countP {α β : Type} (f : α → Option β) (l : List α) :
    (l.filterMap f).length = l.countP (fun a => (f a).isSome) := by
  induction l with
  | nil => rfl
  | cons a t ih =>
    rw [List.filterMap_cons, List.countP_cons]
    cases hfa : f a with
    | none => simp [hfa, ih]
    | some b => simp [hfa, ih]

/-- Length of a filtered filterMap counts the inputs whose image satisfies
the predicate. -/
theorem length_filter_filterMap {α β : Type} (f : α → Option β) (p : β → Bool)
    (l : List α) :
    ((l.filterMap f).filter p).length =
      l.countP (fun a => ((f a).map p).getD false) := by
  induction l with
  | nil => rfl
  | cons a t ih =>
    rw [List.filterMap_cons, List.countP_cons]
    cases hfa : f a with
    | none => simp [hfa, ih]
    | some b =>
      cases hpb : p b with
      | false => simp [hfa, hpb, List.filter_cons, ih]
      | true => simp [hfa, hpb, List.filter_cons, ih]

set_option maxRecDepth 16000 in
/-- C8 counterexample: on a document with 23 checked and 17 unchecked
items, the program computes the percentage in binary64 floating point:
the double product (23/40)*100 falls just below 57.5, so Math.round
returns 57, while the exact rounding round(23/40*100) = round(57.5)
demanded by the claim is 58. -/
theorem c8_progress_round_ce :
    (parseProgress (String.join (List.replicate 23 "- [x] a\n") ++
      String.join (List.replicate 17 "- [ ] b\n"))).total = 40 ∧
    (parseProgress (String.join (List.replicate 23 "- [x] a\n") ++
      String.join (List.replicate 17 "- [ ] b\n"))).completed = 23 ∧
    (parseProgress (String.join (List.replicate 23 "- [x] a\n") ++
      String.join (List.replicate 17 "- [ ] b\n"))).percentage = 57 ∧
    (200 * 23 + 40) / (2 * 40) = 58 ∧ (57 : Nat) ≠ 58 :=
  ⟨by decide, by decide, by decide, by decide, by decide⟩

/-- C8 (amended): for every document content, progress computation returns
total equal to the number of checkbox-pattern lines, completed equal to the
number of those whose bracket holds a lowercase-folded x, the items in
document order, and percentage equal to Math.round of (completed/total)*100
as evaluated in binary64 floating point, defined as zero when total is zero
(no error path); the floating-point value can differ by one from the exact
rational rounding at inputs whose exact percentage is adjacent to a
half-integer boundary. -/
theorem c8_progress_compute (content : String) :
    (parseProgress content).total =
      (splitNl content.data).countP (fun l => (matchCheckboxLine l).isSome) ∧
    (parseProgress content).completed =
      (splitNl content.data).countP
        (fun l => ((matchCheckboxLine l).map TaskItem.completed).getD false) ∧
    (parseProgress content).tasks =
      (splitNl content.data).filterMap matchCheckboxLine ∧
    (parseProgress content).percentage =
      (if (parseProgress content).total = 0 then 0
       else jsPercentage (parseProgress content).completed
         (parseProgress content).total) := by
  refine ⟨?_, ?_, rfl, ?_⟩
  · exact length_filterMap_eq_countP matchCheckboxLine (splitNl content.data)
  · exact length_filter_filterMap matchCheckboxLine TaskItem.completed
      (splitNl content.data)
  · show (if 0 < ((splitNl content.data).filterMap matchCheckboxLine).length
        then jsPercentage _ _ else 0) = _
    rcases Nat.eq_zero_or_pos ((splitNl content.data).filterMap matchCheckboxLine).length
        with h | h
    · rw [h]
      simp [parseProgress, h]
    · rw [if_pos h, if_neg (by simpa [parseProgress] using Nat.pos_iff_ne_zero.mp h)]
      rfl


/-! ### Claim C9 -/

/-- The code-unit comparator accepts exactly the non-strictly-greater
pairs: charsLe x y holds iff y is not lexicographically below x. -/
theorem charsLe_iff : ∀ (x y : List Char),
    charsLe x y = true ↔ ¬ List.Lex (· < ·) y x
  | [], [] => by
    constructor
    · intro _ h
      cases h
    · intro _
      rfl
  | [], _ :: _ => by
    constructor
    · intro _ h
      cases h
    · intro _
      rfl
  | a :: as, [] => by
    constructor
    · intro h
      simp [charsLe] at h
    · intro h
      exact absurd List.Lex.nil h
  | a :: as, b :: bs => by
    rcases lt_trichotomy a b with hab | hab | hab
    · rw [charsLe, if_pos hab]
      constructor
      · intro _ h
        cases h with
        | rel hr => exact absurd hr (lt_asymm hab)
        | cons h2 => exact absurd hab (lt_irrefl a)
      · intro _
        rfl
    · subst hab
      rw [charsLe, if_neg (lt_irrefl a), if_neg (lt_irrefl a)]
      rw [charsLe_iff as bs]
      constructor
      · intro h hl
        cases hl with
        | rel hr => exact absurd hr (lt_irrefl a)
        | cons h2 => exact h h2
      · intro h h2
        exact h (List.Lex.cons h2)
    · rw [charsLe, if_neg (lt_asymm hab), if_pos hab]
      constructor
      · intro h
        simp at h
      · intro h
        exact absurd (List.Lex.rel hab) h
  termination_by x _ => x.length

/-- String comparison is lexicographic comparison of the character data. -/
theorem string_lt_iff_data (s t : String) :
    s < t ↔ List.Lex (· < ·) s.data t.data := by
  cases s
  cases t
  exact string_lt_iff_lex

/-- The executable comparator agrees with the string order. -/
theorem strLeB_iff_le (a b : String) : strLeB a b = true ↔ a ≤ b := by
  rw [strLeB, charsLe_iff, ← string_lt_iff_data b a]
  exact not_lt

/-- C9: history listing with a limit returns exactly the minimum of the
limit and the number of entries carrying the task-file suffix, in strictly
descending filename order (so the most recently created, lexicographically
largest, archive names come first), and every listed name is strictly above
every matching name that was truncated away. -/
theorem c9_history_limit (archive : List (String × String)) (limit : Nat)
    (hnd : (archive.map Prod.fst).Nodup) :
    ((getHistory archive limit).map TaskHistoryItem.file).length =
      min limit (((archive.map Prod.fst).filter
        (fun f => strEndsWith f "_task.md")).length) ∧
    List.Pairwise (fun a b => b < a)
      ((getHistory archive limit).map TaskHistoryItem.file) ∧
    (∀ b ∈ (archive.map Prod.fst).filter (fun f => strEndsWith f "_task.md"),
      b ∉ (getHistory archive limit).map TaskHistoryItem.file →
      ∀ a ∈ (getHistory archive limit).map TaskHistoryItem.file, b < a) := by
  have hnames : (getHistory archive limit).map TaskHistoryItem.file =
      ((((archive.map Prod.fst).filter
        (fun f => strEndsWith f "_task.md")).insertionSort
          (fun a b => strLeB a b = true)).reverse).take limit := by
    unfold getHistory
    rw [List.map_map]
    exact List.map_id _
  have htot : IsTotal String (fun a b => strLeB a b = true) := by
    constructor
    intro a b
    rw [strLeB_iff_le, strLeB_iff_le]
    exact le_total a b
  have htrans : IsTrans String (fun a b => strLeB a b = true) := by
    constructor
    intro a b c hab hbc
    rw [strLeB_iff_le] at hab hbc ⊢
    exact le_trans hab hbc
  have hsortB := @List.sorted_insertionSort String (fun a b => strLeB a b = true)
    (fun a b => instDecidableEqBool (strLeB a b) true) htot htrans
    ((archive.map Prod.fst).filter (fun f => strEndsWith f "_task.md"))
  have hsort : (((archive.map Prod.fst).filter
      (fun f => strEndsWith f "_task.md")).insertionSort
        (fun a b => strLeB a b = true)).Sorted (· ≤ ·) :=
    hsortB.imp (fun h => (strLeB_iff_le _ _).mp h)
  have hperm := List.perm_insertionSort (fun a b => strLeB a b = true)
    ((archive.map Prod.fst).filter (fun f => strEndsWith f "_task.md"))
  have hmatchednd : ((archive.map Prod.fst).filter
      (fun f => strEndsWith f "_task.md")).Nodup := hnd.filter _
  have hsnd := (hperm.nodup_iff).mpr hmatchednd
  have hrevnd := List.nodup_reverse.mpr hsnd
  have hrevge : List.Pairwise (fun a b => b ≤ a)
      (((archive.map Prod.fst).filter
        (fun f => strEndsWith f "_task.md")).insertionSort
          (fun a b => strLeB a b = true)).reverse :=
    List.pairwise_reverse.mpr hsort
  have hrevgt : List.Pairwise (fun a b => b < a)
      (((archive.map Prod.fst).filter
        (fun f => strEndsWith f "_task.md")).insertionSort
          (fun a b => strLeB a b = true)).reverse :=
    (hrevge.and hrevnd).imp (fun h => lt_of_le_of_ne h.1 (Ne.symm h.2))
  refine ⟨?_, ?_, ?_⟩
  · rw [hnames, List.length_take, List.length_reverse, hperm.length_eq]
  · rw [hnames]
    exact List.Pairwise.sublist (List.take_sublist _ _) hrevgt
  · intro b hb hbn a ha
    rw [hnames] at hbn ha
    have hbrev : b ∈ (((archive.map Prod.fst).filter
        (fun f => strEndsWith f "_task.md")).insertionSort
          (fun a b => strLeB a b = true)).reverse :=
      (List.mem_reverse).mpr (hperm.mem_iff.mpr hb)
    have hsplit := List.take_append_drop limit
      ((((archive.map Prod.fst).filter
        (fun f => strEndsWith f "_task.md")).insertionSort
          (fun a b => strLeB a b = true)).reverse)
    have hrevgt' : List.Pairwise (fun a b => b < a)
        ((((((archive.map Prod.fst).filter
          (fun f => strEndsWith f "_task.md")).insertionSort
            (fun a b => strLeB a b = true)).reverse).take limit) ++
         (((((archive.map Prod.fst).filter
          (fun f => strEndsWith f "_task.md")).insertionSort
            (fun a b => strLeB a b = true)).reverse).drop limit)) := by
      rw [hsplit]
      exact hrevgt
    have hdrop : b ∈ ((((archive.map Prod.fst).filter
        (fun f => strEndsWith f "_task.md")).insertionSort
          (fun a b => strLeB a b = true)).reverse).drop limit := by
      rw [← hsplit] at hbrev
      rcases List.mem_append.mp hbrev with h | h
      · exact absurd h hbn
      · exact h
    exact (List.pairwise_append.mp hrevgt').2.2 a ha b hdrop

/-- C9 witness: limit two against five matching archived entries returns the
two lexicographically largest names, newest first. -/
theorem c9_history_limit_witness :
    ([("2025-01-01_00-00-00-000_task.md", "# A"),
       ("2025-03-01_00-00-00-000_task.md", "# C"),
       ("2025-02-01_00-00-00-000_task.md", "# B"),
       ("notes.txt", "# N"),
       ("2025-04-01_00-00-00-000_task.md", "# D"),
       ("2025-05-01_00-00-00-000_task.md", "# E")].map
        (fun p : String × String => p.1)).Nodup ∧
    ((getHistory [("2025-01-01_00-00-00-000_task.md", "# A"),
       ("2025-03-01_00-00-00-000_task.md", "# C"),
       ("2025-02-01_00-00-00-000_task.md", "# B"),
       ("notes.txt", "# N"),
       ("2025-04-01_00-00-00-000_task.md", "# D"),
       ("2025-05-01_00-00-00-000_task.md", "# E")] 2).map TaskHistoryItem.file).length =
      min 2 ((([("2025-01-01_00-00-00-000_task.md", "# A"),
       ("2025-03-01_00-00-00-000_task.md", "# C"),
       ("2025-02-01_00-00-00-000_task.md", "# B"),
       ("notes.txt", "# N"),
       ("2025-04-01_00-00-00-000_task.md", "# D"),
       ("2025-05-01_00-00-00-000_task.md", "# E")].map Prod.fst).filter
        (fun f => strEndsWith f "_task.md")).length) ∧
    (getHistory [("2025-01-01_00-00-00-000_task.md", "# A"),
       ("2025-03-01_00-00-00-000_task.md", "# C"),
       ("2025-02-01_00-00-00-000_task.md", "# B"),
       ("notes.txt", "# N"),
       ("2025-04-01_00-00-00-000_task.md", "# D"),
       ("2025-05-01_00-00-00-000_task.md", "# E")] 2).map TaskHistoryItem.file =
      ["2025-05-01_00-00-00-000_task.md", "2025-04-01_00-00-00-000_task.md"] :=
  ⟨by decide,
    (c9_history_limit [("2025-01-01_00-00-00-000_task.md", "# A"),
       ("2025-03-01_00-00-00-000_task.md", "# C"),
       ("2025-02-01_00-00-00-000_task.md", "# B"),
       ("notes.txt", "# N"),
       ("2025-04-01_00-00-00-000_task.md", "# D"),
       ("2025-05-01_00-00-00-000_task.md", "# E")] 2 (by decide)).1,
    by decide⟩

/-! ### Claim C1, symbolic development

The filename renderers are made irreducible from here on so that unification
never tries to evaluate them at symbolic timestamps; the kernel is not
affected. -/

attribute [irreducible] padDigits archiveNameData archiveFileName isoString archivedContent

/-- Serial createNewTask calls on a state with an active task file add one
archive entry per call, provided no two calls collide on an archive
filename. -/
theorem runCreates_archive_length :
    ∀ (calls : List (DateTime × String)) (st : TMState) (c : String),
      st.taskFile? = some c →
      (calls.map (fun p => archiveFileName p.1)).Nodup →
      (∀ p ∈ calls, archiveFileName p.1 ∉ st.archive.map Prod.fst) →
      (runCreates st calls).archive.length = st.archive.length + calls.length := by
  intro calls
  induction calls with
  | nil => intro st c _ _ _; rfl
  | cons q rest ih =>
    intro st c hst hnd hfresh
    obtain ⟨now, nc⟩ := q
    obtain ⟨nm, hnm⟩ : ∃ nm, archiveFileName now = nm := ⟨_, rfl⟩
    obtain ⟨ac, hac⟩ : ∃ ac, archivedContent now c = ac := ⟨_, rfl⟩
    simp only [List.map_cons, List.nodup_cons, hnm] at hnd
    have hkey : nm ∉ st.archive.map Prod.fst := by
      have := hfresh (now, nc) (List.mem_cons_self _ _)
      rwa [hnm] at this
    have hstep := createNewTask_some st c now nc hst
    rw [hnm, hac] at hstep
    have hfresh' : ∀ p ∈ rest, archiveFileName p.1 ∉
        (insertAssoc nm ac st.archive).map Prod.fst := by
      intro p hp
      rw [insertAssoc_keys_of_not_mem hkey]
      simp only [List.mem_append, List.mem_singleton]
      push_neg
      refine ⟨hfresh p (List.mem_cons_of_mem _ hp), ?_⟩
      intro he
      apply hnd.1
      rw [← he]
      exact List.mem_map_of_mem (fun p => archiveFileName p.1) hp
    show (runCreates (createNewTask st now nc).2 rest).archive.length = _
    rw [hstep]
    rw [ih _ nc rfl hnd.2 hfresh']
    simp only [insertAssoc_length_of_not_mem hkey, List.length_cons]
    omega

/-- C1 (amended): starting from a fresh project root, N createNewTask calls
whose wall-clock timestamps are strictly increasing at millisecond
resolution leave exactly N minus one files in the archive directory: each
call archives the existing active task file first and the first call finds
nothing to archive.  (Calls sharing a millisecond can collide on the archive
filename and overwrite, leaving fewer entries.) -/
theorem c1_archive_count (calls : List (DateTime × String)) (hne : calls ≠ [])
    (hv : ∀ p ∈ calls, p.1.Valid)
    (hmono : List.Pairwise (fun p q => dtLt p.1 q.1) calls) :
    (runCreates freshTM calls).archive.length = calls.length - 1 := by
  match calls, hne with
  | (now, nc) :: rest, _ =>
    have h1 : (createNewTask freshTM now nc).2 = ⟨some nc, []⟩ := rfl
    show (runCreates (createNewTask freshTM now nc).2 rest).archive.length = _
    rw [h1]
    have hnd : (rest.map (fun p => archiveFileName p.1)).Nodup := by
      have hpw : List.Pairwise (fun p q => dtLt p.1 q.1) rest := hmono.of_cons
      have hpw' : List.Pairwise
          (fun p q => archiveFileName p.1 ≠ archiveFileName q.1) rest := by
        refine hpw.imp_of_mem ?_
        intro p q hp hq hlt
        exact archiveFileName_ne hlt
          (hv p (List.mem_cons_of_mem _ hp)) (hv q (List.mem_cons_of_mem _ hq))
      exact List.pairwise_map.mpr hpw'
    rw [runCreates_archive_length rest ⟨some nc, []⟩ nc rfl hnd (by simp)]
    simp

/-- C1 witness: two strictly ordered calls leave one archive entry. -/
theorem c1_archive_count_witness :
    ([((⟨2026, 1, 2, 3, 4, 5, 6⟩ : DateTime), "A"),
      ((⟨2026, 1, 2, 3, 4, 5, 7⟩ : DateTime), "B")] ≠
        ([] : List (DateTime × String))) ∧
    (runCreates freshTM [(⟨2026, 1, 2, 3, 4, 5, 6⟩, "A"),
      (⟨2026, 1, 2, 3, 4, 5, 7⟩, "B")]).archive.length = 2 - 1 :=
  ⟨by decide,
    c1_archive_count _ (by decide) (by decide) (by decide)⟩
